import Mathlib

/-!
Verification of the time-accounting core of the ferreteriaBack repository.

Instants are modelled as natural numbers of milliseconds since the epoch;
the calendar day of an instant is its UTC day number, matching the
JavaScript idiom `date.toISOString().split('T')[0]`.  Decimal quantities
(hours) are rationals.  Fallible route handlers are modelled as functions
into `Except Err`, where `Err` distinguishes the different 4xx responses
of the routes.  Each definition is translated from the named source
location.
-/

namespace Ferreteria

/-- User roles (src/unnamed/part_000, users table): jefe = manager,
trabajador = worker. -/
inductive Role
  | jefe
  | trabajador
deriving DecidableEq, Repr

/-- Task status enum (src/models/Task.js). -/
inductive TaskStatus
  | pendiente
  | en_progreso
  | completada
  | cancelada
deriving DecidableEq, Repr

/-- Task priority enum (src/models/Task.js). -/
inductive Priority
  | baja
  | media
  | alta
  | urgente
deriving DecidableEq, Repr

/-- Field names of the PUT /api/tasks/:id request body that the handler
reads (src/routes/tasks.js, allowedUpdates list). -/
inductive Field
  | title
  | description
  | status
  | priority
  | estimated_hours
  | due_date
  | completion_comments
deriving DecidableEq, Repr

/-- Error kinds returned by the routes, one per distinct 4xx response:
conflict = duplicate open record, notFound = missing row, forbidden = role
or ownership violation, validation = express-validator or model validation
failure, invalidState = generic lifecycle violation, frozenFields =
editing a frozen in-progress task (carries the offending field names),
openTimer = completing a task whose linked timer is still running. -/
inductive Err
  | conflict
  | notFound
  | forbidden
  | validation
  | invalidState
  | frozenFields (fields : List Field)
  | openTimer
deriving DecidableEq, Repr

/-- One attendance record, table time_clocks (src/unnamed/part_001). -/
structure TimeClock where
  id : Nat
  user_id : Nat
  clock_in_time : Nat
  clock_out_time : Option Nat
  date : Nat
  total_hours : ℚ
  break_time_minutes : Nat
deriving DecidableEq, Repr

/-- One work-interval record, table time_entries (src/models/TimeEntry.js). -/
structure TimeEntry where
  id : Nat
  user_id : Nat
  task_id : Option Nat
  start_time : Nat
  end_time : Option Nat
  duration_minutes : Nat
  date : Nat
  is_free_time : Bool
deriving DecidableEq, Repr

/-- One task row (src/models/Task.js). -/
structure Task where
  id : Nat
  title : String
  description : Option String
  assigned_to : Option Nat
  created_by : Nat
  status : TaskStatus
  priority : Priority
  estimated_hours : Option ℚ
  actual_hours : ℚ
  due_date : Option Nat
  completed_at : Option Nat
  completion_comments : Option String
deriving DecidableEq, Repr

/-- The relational store visible to the time-accounting core. -/
structure St where
  clocks : List TimeClock
  entries : List TimeEntry
  tasks : List Task
  nextId : Nat
deriving DecidableEq, Repr

def msPerDay : Nat := 86400000

/-- UTC calendar-day number of an instant, as produced by
`toISOString().split('T')[0]`. -/
def dayOf (t : Nat) : Nat := t / msPerDay

/-- JavaScript Math.round: round half toward positive infinity. -/
def jsRound (q : ℚ) : ℤ := Int.floor (q + 1/2)

/-- Replace the first element satisfying `p` (a Sequelize row update of the
instance found by a query). -/
def replaceFirst (p : α → Bool) (x : α) : List α → List α
  | [] => []
  | a :: rest => if p a then x :: rest else a :: replaceFirst p x rest

/-- Task.findByPk. -/
def findTask (ts : List Task) (tid : Nat) : Option Task :=
  ts.find? (fun t => decide (t.id = tid))

/-- TimeEntry.findByPk. -/
def findEntry (es : List TimeEntry) (eid : Nat) : Option TimeEntry :=
  es.find? (fun e => decide (e.id = eid))

/-- The where-clause of TimeClock.getTodaysActiveClock: same user, date =
today, clock_out_time null. -/
def isOpenClockFor (uid d : Nat) (c : TimeClock) : Bool :=
  decide (c.user_id = uid ∧ c.date = d ∧ c.clock_out_time = none)

/-- findOne with ORDER BY clock_in_time DESC: the element of the list with
the latest clock_in_time. -/
def pickLatest : List TimeClock → Option TimeClock
  | [] => none
  | c :: rest =>
    match pickLatest rest with
    | none => some c
    | some c2 => if c.clock_in_time < c2.clock_in_time then some c2 else some c

/-- TimeClock.getTodaysActiveClock (src/unnamed/part_001 lines 163-173):
today's open record with the latest start.  Note the date filter: an open
record from an earlier calendar day is not found. -/
def getTodaysActiveClock (cs : List TimeClock) (uid d : Nat) : Option TimeClock :=
  pickLatest (cs.filter (isOpenClockFor uid d))

/-- The where-clause of TimeEntry.getActiveEntry: same user, end_time null,
with no date restriction. -/
def isOpenEntryFor (uid : Nat) (e : TimeEntry) : Bool :=
  decide (e.user_id = uid ∧ e.end_time = none)

/-- TimeEntry.getActiveEntry (src/models/TimeEntry.js lines 186-198). -/
def getActiveEntry (es : List TimeEntry) (uid : Nat) : Option TimeEntry :=
  es.find? (isOpenEntryFor uid)

/-- Number of a user's open clock sessions dated on a given day. -/
def openClockCount (cs : List TimeClock) (uid d : Nat) : Nat :=
  cs.countP (isOpenClockFor uid d)

/-- Number of a user's open clock sessions over all dates. -/
def userOpenClockCount (cs : List TimeClock) (uid : Nat) : Nat :=
  cs.countP (fun c => decide (c.user_id = uid ∧ c.clock_out_time = none))

/-- Number of a user's open time entries (all dates). -/
def userOpenEntryCount (es : List TimeEntry) (uid : Nat) : Nat :=
  es.countP (isOpenEntryFor uid)

/-- POST /api/timetrack/clock/in (src/routes/timetrack.js lines 51-90):
reject with 400 if getTodaysActiveClock finds an open record for today,
otherwise create a new record with start = now and date = today (the
beforeSave hook re-derives date from clock_in_time). -/
def clockIn (s : St) (uid now : Nat) : Except Err (TimeClock × St) :=
  match getTodaysActiveClock s.clocks uid (dayOf now) with
  | some _ => .error .conflict
  | none =>
    let c : TimeClock :=
      { id := s.nextId, user_id := uid, clock_in_time := now, clock_out_time := none,
        date := dayOf now, total_hours := 0, break_time_minutes := 0 }
    .ok (c, { s with clocks := s.clocks ++ [c], nextId := s.nextId + 1 })

/-- POST /api/timetrack/clock/out (src/routes/timetrack.js lines 95-144)
with TimeClock.prototype.clockOut and the model validations of
src/unnamed/part_001: break minutes validated to 0-480, the clock-out
instant must be after clock-in, total_hours = max(0, elapsed hours minus
break hours) and is rejected by the model validator when above 24. -/
def clockOut (s : St) (uid now brk : Nat) : Except Err (TimeClock × St) :=
  if 480 < brk then .error .validation
  else
    match getTodaysActiveClock s.clocks uid (dayOf now) with
    | none => .error .invalidState
    | some c =>
      if now ≤ c.clock_in_time then .error .validation
      else
        let hours : ℚ := max 0 (((now : ℚ) - (c.clock_in_time : ℚ)) / 3600000 - (brk : ℚ) / 60)
        if 24 < hours then .error .validation
        else
          let c2 : TimeClock :=
            { c with clock_out_time := some now, break_time_minutes := brk,
                     total_hours := hours, date := dayOf c.clock_in_time }
          .ok (c2, { s with clocks := replaceFirst (fun x => decide (x.id = c.id)) c2 s.clocks })

/-- POST /api/timetrack/entries/start (src/routes/timetrack.js lines
222-303): reject if the user already has an open entry anywhere; if a task
id is given the task must exist and, for a worker, be assigned to the
actor; the new entry starts now with zero duration. -/
def startEntry (s : St) (uid : Nat) (role : Role) (taskId : Option Nat) (now : Nat) :
    Except Err (TimeEntry × St) :=
  match getActiveEntry s.entries uid with
  | some _ => .error .conflict
  | none =>
    let created : Except Err (TimeEntry × St) :=
      let e : TimeEntry :=
        { id := s.nextId, user_id := uid, task_id := taskId, start_time := now,
          end_time := none, duration_minutes := 0, date := dayOf now,
          is_free_time := taskId.isNone }
      .ok (e, { s with entries := s.entries ++ [e], nextId := s.nextId + 1 })
    match taskId with
    | none => created
    | some tid =>
      match findTask s.tasks tid with
      | none => .error .notFound
      | some t =>
        if role = .trabajador ∧ t.assigned_to ≠ some uid then .error .forbidden
        else created

/-- Sum of duration_minutes over the entries linked to a task
(TimeEntry.sum in the afterSave hook of src/models/TimeEntry.js). -/
def sumTaskMinutes : List TimeEntry → Nat → Nat
  | [], _ => 0
  | e :: rest, tid =>
    (if e.task_id = some tid then e.duration_minutes else 0) + sumTaskMinutes rest tid

/-- POST /api/timetrack/entries/:id/stop (src/routes/timetrack.js lines
308-354) with TimeEntry.prototype.stop and the beforeSave/afterSave hooks
of src/models/TimeEntry.js: ownership and already-stopped checks, duration
= floor(elapsed ms / 60000) validated to at most 1440 with end after
start, the date re-derived from start, and, when the entry is linked to a
task and the new duration is positive, a full re-sum of that task's
actual_hours from all its entries. -/
def stopEntry (s : St) (eid actorId now : Nat) : Except Err (TimeEntry × St) :=
  match findEntry s.entries eid with
  | none => .error .notFound
  | some e =>
    if e.user_id ≠ actorId then .error .forbidden
    else if e.end_time ≠ none then .error .invalidState
    else if now ≤ e.start_time then .error .validation
    else
      let d := (now - e.start_time) / 60000
      if 1440 < d then .error .validation
      else
        let e2 : TimeEntry :=
          { e with end_time := some now, duration_minutes := d, date := dayOf e.start_time }
        let entries2 := replaceFirst (fun x => decide (x.id = eid)) e2 s.entries
        let tasks2 :=
          match e.task_id with
          | none => s.tasks
          | some tid =>
            if 0 < d then
              match findTask s.tasks tid with
              | none => s.tasks
              | some t =>
                replaceFirst (fun x => decide (x.id = tid))
                  { t with actual_hours := (sumTaskMinutes entries2 tid : ℚ) / 60 } s.tasks
            else s.tasks
        .ok (e2, { s with entries := entries2, tasks := tasks2 })

/-- The four time-tracking operations, each taking its wall-clock instant
explicitly. -/
inductive Op
  | clockIn (uid now : Nat)
  | clockOut (uid now brk : Nat)
  | startEntry (uid : Nat) (role : Role) (taskId : Option Nat) (now : Nat)
  | stopEntry (eid actorId now : Nat)
deriving DecidableEq, Repr

/-- One request against the store; a failed request leaves the store
unchanged. -/
def step (s : St) : Op → St
  | .clockIn uid now =>
    match clockIn s uid now with
    | .ok p => p.2
    | .error _ => s
  | .clockOut uid now brk =>
    match clockOut s uid now brk with
    | .ok p => p.2
    | .error _ => s
  | .startEntry uid role taskId now =>
    match startEntry s uid role taskId now with
    | .ok p => p.2
    | .error _ => s
  | .stopEntry eid actorId now =>
    match stopEntry s eid actorId now with
    | .ok p => p.2
    | .error _ => s

/-- Run a sequence of requests. -/
def run (s : St) : List Op → St
  | [] => s
  | op :: ops => run (step s op) ops

/-- Initial store: no clock sessions, no entries, a given list of
pre-existing tasks. -/
def initSt (ts : List Task) : St :=
  { clocks := [], entries := [], tasks := ts, nextId := 0 }

/-- The two fields an in-progress task may still change
(src/routes/tasks.js line 372). -/
def allowedFieldsForInProgress : List Field := [.status, .completion_comments]

/-- A task-update request body; `none` means the key is absent. -/
structure UpdateBody where
  title : Option String
  description : Option String
  status : Option TaskStatus
  priority : Option Priority
  estimated_hours : Option ℚ
  due_date : Option Nat
  completion_comments : Option String
deriving DecidableEq, Repr

/-- Object.keys(req.body) restricted to the fields the handler reads, in
declaration order. -/
def presentFields (b : UpdateBody) : List Field :=
  (if b.title.isSome then [Field.title] else []) ++
  (if b.description.isSome then [Field.description] else []) ++
  (if b.status.isSome then [Field.status] else []) ++
  (if b.priority.isSome then [Field.priority] else []) ++
  (if b.estimated_hours.isSome then [Field.estimated_hours] else []) ++
  (if b.due_date.isSome then [Field.due_date] else []) ++
  (if b.completion_comments.isSome then [Field.completion_comments] else [])

/-- The fields of the body outside the in-progress allow-list
(src/routes/tasks.js line 374). -/
def invalidFields (b : UpdateBody) : List Field :=
  (presentFields b).filter (fun f => decide (f ∉ allowedFieldsForInProgress))

/-- Apply the present body fields to the task (the allowedUpdates loop of
PUT /api/tasks/:id). -/
def applyBody (t : Task) (b : UpdateBody) : Task :=
  { t with
    title := b.title.getD t.title,
    description := match b.description with | some v => some v | none => t.description,
    status := b.status.getD t.status,
    priority := b.priority.getD t.priority,
    estimated_hours := match b.estimated_hours with | some v => some v | none => t.estimated_hours,
    due_date := match b.due_date with | some v => some v | none => t.due_date,
    completion_comments :=
      match b.completion_comments with | some v => some v | none => t.completion_comments }

/-- The beforeUpdate hook of src/models/Task.js lines 107-116: set
completed_at when completing without one, clear it when the status moved
away from completada. -/
def beforeUpdateHook (t : Task) (now : Nat) : Task :=
  if t.status = .completada ∧ t.completed_at = none then { t with completed_at := some now }
  else if t.status ≠ .completada ∧ t.completed_at ≠ none then { t with completed_at := none }
  else t

/-- Whether some entry linked to the task is still open (the active-timer
query of PUT /api/tasks/:id, lines 386-391). -/
def hasOpenEntryForTask (es : List TimeEntry) (tid : Nat) : Bool :=
  es.any (fun e => decide (e.task_id = some tid ∧ e.end_time = none))

/-- PUT /api/tasks/:id (src/routes/tasks.js lines 324-441): permission
check, the in-progress field freeze, the open-timer check when the body
sets status completada, then the field updates with completed_at stamped
and the beforeUpdate hook. -/
def updateTask (s : St) (actorId : Nat) (role : Role) (tid : Nat) (b : UpdateBody) (now : Nat) :
    Except Err St :=
  match findTask s.tasks tid with
  | none => .error .notFound
  | some t =>
    if role = .trabajador ∧ t.assigned_to ≠ some actorId then .error .forbidden
    else if t.status = .en_progreso ∧ invalidFields b ≠ [] then
      .error (.frozenFields (invalidFields b))
    else if b.status = some .completada ∧ hasOpenEntryForTask s.entries tid then
      .error .openTimer
    else
      let t1 := applyBody t b
      let t2 := if b.status = some .completada then { t1 with completed_at := some now } else t1
      let t3 := beforeUpdateHook t2 now
      .ok { s with tasks := replaceFirst (fun x => decide (x.id = tid)) t3 s.tasks }

/-- POST /api/tasks/:id/complete (src/routes/tasks.js lines 474-505) with
Task.prototype.markAsCompleted: permission check, then status :=
completada and completed_at := now, with no open-timer check. -/
def completeTask (s : St) (actorId : Nat) (role : Role) (tid now : Nat) :
    Except Err (Task × St) :=
  match findTask s.tasks tid with
  | none => .error .notFound
  | some t =>
    if role = .trabajador ∧ t.assigned_to ≠ some actorId then .error .forbidden
    else
      let t2 := { t with status := .completada, completed_at := some now }
      .ok (t2, { s with tasks := replaceFirst (fun x => decide (x.id = tid)) t2 s.tasks })

/-- PUT /api/tasks/:id/assign-to-me (src/routes/tasks.js lines 510-560):
only unassigned, non-completed, non-cancelled tasks; sets assignee and
status en_progreso in one update (the beforeUpdate hook runs on save). -/
def selfAssign (s : St) (actorId tid now : Nat) : Except Err (Task × St) :=
  match findTask s.tasks tid with
  | none => .error .notFound
  | some t =>
    if t.assigned_to ≠ none then .error .invalidState
    else if t.status = .completada ∨ t.status = .cancelada then .error .invalidState
    else
      let t2 := beforeUpdateHook { t with assigned_to := some actorId, status := .en_progreso } now
      .ok (t2, { s with tasks := replaceFirst (fun x => decide (x.id = tid)) t2 s.tasks })

/-- POST /api/tasks/activity (src/routes/tasks.js lines 565-632): create a
free-activity task auto-assigned to the actor and started en_progreso. -/
def createActivity (s : St) (actorId : Nat) (title : String) : Task × St :=
  let t : Task :=
    { id := s.nextId, title := title, description := some "Actividad de trabajo libre",
      assigned_to := some actorId, created_by := actorId, status := .en_progreso,
      priority := .media, estimated_hours := none, actual_hours := 0, due_date := none,
      completed_at := none, completion_comments := none }
  (t, { s with tasks := s.tasks ++ [t], nextId := s.nextId + 1 })

/-- Task.prototype.calculateProgress (src/models/Task.js lines 127-139). -/
def calculateProgress (t : Task) : ℤ :=
  if t.status = .completada then 100
  else
    match t.estimated_hours with
    | none => 0
    | some e => if e ≤ 0 then 0 else min (jsRound (t.actual_hours / e * 100)) 100

/-- The inline progress computation of GET /api/tasks (src/routes/tasks.js
lines 96-125): worked hours from summed entry durations, the estimate
branch checked before the completed branch, Math.round applied last. -/
def listProgress (t : Task) (entryDurations : List Nat) : ℤ :=
  let totalMinutesWorked : Nat := entryDurations.sum
  let totalHoursWorked : ℚ := (totalMinutesWorked : ℚ) / 60
  let p : ℚ :=
    match t.estimated_hours with
    | some e =>
      if 0 < e then min (totalHoursWorked / e * 100) 100
      else if t.status = .completada then 100 else 0
    | none => if t.status = .completada then 100 else 0
  jsRound p

/-- Per-worker task data feeding the efficiency computation of GET
/api/timetrack/reports/team-stats: the task's estimate and the
duration_minutes of its linked entries. -/
structure WTask where
  estimated_hours : Option ℚ
  entryMinutes : List Nat
deriving DecidableEq, Repr

/-- The tasksWithEstimates filter: task.estimated_hours > 0. -/
def hasPositiveEstimate (t : WTask) : Bool :=
  match t.estimated_hours with
  | some q => decide (0 < q)
  | none => false

/-- Hours worked on one task: sum of entry duration_minutes / 60. -/
def taskWorkedHours (t : WTask) : ℚ :=
  (t.entryMinutes.map (fun m : Nat => (m : ℚ) / 60)).sum

/-- The three-tier efficiency score of GET /api/timetrack/reports/team-stats
(src/routes/timetrack.js lines 674-716), translated branch for branch. -/
def efficiency (tasks : List WTask) (totalHours : ℚ) (completedTasks : Nat) : ℤ :=
  let tasksWithEstimates := tasks.filter hasPositiveEstimate
  let tasksWithTimeEntries := tasks.filter (fun t => !t.entryMinutes.isEmpty)
  if tasksWithEstimates ≠ [] ∧ tasksWithTimeEntries ≠ [] then
    let totalEstimated : ℚ := (tasksWithEstimates.map (fun t => t.estimated_hours.getD 0)).sum
    let totalWorkedOnTasks : ℚ := (tasks.map taskWorkedHours).sum
    if 0 < totalWorkedOnTasks then jsRound (totalEstimated / totalWorkedOnTasks * 100) else 0
  else if 0 < totalHours then
    jsRound (min ((completedTasks : ℚ) / totalHours / (1/2) * 100) 200)
  else if 0 < completedTasks then 80
  else 0

/-- The efficiency tiers exactly as the specification words them, for
comparison with `efficiency`: tier 1 applies whenever some task has a
positive estimate and some task has linked entries, with the quotient
taken in ℚ (where division by zero yields zero). -/
def specEfficiency (tasks : List WTask) (totalHours : ℚ) (completedTasks : Nat) : ℤ :=
  let tasksWithEstimates := tasks.filter hasPositiveEstimate
  let tasksWithTimeEntries := tasks.filter (fun t => !t.entryMinutes.isEmpty)
  if tasksWithEstimates ≠ [] ∧ tasksWithTimeEntries ≠ [] then
    jsRound ((tasksWithEstimates.map (fun t => t.estimated_hours.getD 0)).sum /
      (tasks.map taskWorkedHours).sum * 100)
  else if 0 < totalHours then
    jsRound (min ((completedTasks : ℚ) / totalHours / (1/2) * 100) 200)
  else if 0 < completedTasks then 80
  else 0

/-- The permission gate of GET /api/timetrack/reports/weekly/:userId?
(src/routes/timetrack.js lines 442-451): the target defaults to the
actor; a worker asking for another user is rejected with 403 before any
data is read. -/
def weeklyReportTarget (role : Role) (paramUserId : Option Nat) (actorId : Nat) :
    Except Err Nat :=
  if role = .trabajador ∧ paramUserId.getD actorId ≠ actorId then .error .forbidden
  else .ok (paramUserId.getD actorId)

/-- Invariant: at most one open clock session per user and calendar date. -/
def ClockInv (s : St) : Prop :=
  ∀ uid d, openClockCount s.clocks uid d ≤ 1

/-- Invariant: at most one open time entry per user, over all dates. -/
def EntryInv (s : St) : Prop :=
  ∀ uid, userOpenEntryCount s.entries uid ≤ 1

/-- Invariant for the actual-hours resum: every task carries the sum of
its entries' minutes over 60, every open entry still has zero duration,
and task ids are unique (the primary-key property of the tasks table). -/
def HoursInv (s : St) : Prop :=
  (∀ t ∈ s.tasks, t.actual_hours = (sumTaskMinutes s.entries t.id : ℚ) / 60) ∧
  (∀ e ∈ s.entries, e.end_time = none → e.duration_minutes = 0) ∧
  (s.tasks.map Task.id).Nodup

def dfltClock : TimeClock :=
  { id := 0, user_id := 0, clock_in_time := 0, clock_out_time := none, date := 0,
    total_hours := 0, break_time_minutes := 0 }

def dfltEntry : TimeEntry :=
  { id := 0, user_id := 0, task_id := none, start_time := 0, end_time := none,
    duration_minutes := 0, date := 0, is_free_time := true }

def dfltTask : Task :=
  { id := 0, title := "", description := none, assigned_to := none, created_by := 0,
    status := .pendiente, priority := .media, estimated_hours := none, actual_hours := 0,
    due_date := none, completed_at := none, completion_comments := none }

/-- A request body with every key absent. -/
def emptyBody : UpdateBody :=
  { title := none, description := none, status := none, priority := none,
    estimated_hours := none, due_date := none, completion_comments := none }

/-- Trace for the C1 counterexample: clock in on day 0, never clock out,
clock in again on day 1. -/
def c1ops : List Op := [.clockIn 7 0, .clockIn 7 86400000]

/-- Store with one open session of user 7 dated day 0 (for C2). -/
def c2st : St :=
  { clocks := [{ dfltClock with id := 0, user_id := 7, clock_in_time := 0 }],
    entries := [], tasks := [], nextId := 1 }

/-- Store with one closed session of user 7 on day 0 (for the C2 witness:
a later clock-in on the same day must still succeed). -/
def c2wSt : St :=
  { clocks := [{ dfltClock with
                 id := 0,
                 user_id := 7,
                 clock_in_time := 0,
                 clock_out_time := some 3600000,
                 total_hours := 1 }],
    entries := [], tasks := [], nextId := 1 }

def c2wPair : TimeClock × St := (clockIn c2wSt 7 7200000).toOption.getD (dfltClock, c2wSt)

/-- A task assigned to worker 4, in progress, with a 2-hour estimate. -/
def c3task : Task :=
  { dfltTask with
    id := 1, title := "tarea", assigned_to := some 4, created_by := 2,
    status := .en_progreso, estimated_hours := some 2 }

/-- State after worker 4 starts a timer on task 1 at instant 1000. -/
def c3preSt : St := run (initSt [c3task]) [.startEntry 4 .trabajador (some 1) 1000]

/-- Result of stopping that timer two minutes later. -/
def c3pair : TimeEntry × St := (stopEntry c3preSt 0 4 121000).toOption.getD (dfltEntry, c3preSt)

/-- An in-progress task assigned to worker 4 (for C5). -/
def c5task : Task :=
  { dfltTask with
    id := 1, title := "tarea", assigned_to := some 4, created_by := 2,
    status := .en_progreso }

/-- Store where task 1 has one open linked time entry (for the C5
counterexample). -/
def c5cexSt : St :=
  { clocks := [],
    entries := [{ dfltEntry with
                  id := 0, user_id := 4, task_id := some 1,
                  is_free_time := false }],
    tasks := [c5task], nextId := 2 }

/-- Store where task 1 has no open linked entry (for the C5 witness). -/
def c5wSt : St := { clocks := [], entries := [], tasks := [c5task], nextId := 2 }

/-- Body that only asks to complete the task. -/
def c5body : UpdateBody := { emptyBody with status := some .completada }

/-- A completed task with a positive estimate and no worked hours (for C6). -/
def c6task : Task :=
  { dfltTask with
    id := 1, title := "tarea", assigned_to := some 4, created_by := 2,
    status := .completada, estimated_hours := some 10,
    completed_at := some 500 }

/-- Open session of user 3 started at instant 0 (for the C7 witness). -/
def c7clock : TimeClock := { dfltClock with id := 0, user_id := 3, clock_in_time := 0 }

def c7st : St := { clocks := [c7clock], entries := [], tasks := [], nextId := 1 }

/-- The session after user 3 clocks out two hours later with a 30-minute
break: 2 - 1/2 = 3/2 stored hours. -/
def c7outClock : TimeClock :=
  { id := 0, user_id := 3, clock_in_time := 0, clock_out_time := some 7200000, date := 0,
    total_hours := 3/2, break_time_minutes := 30 }

def c7postSt : St := { clocks := [c7outClock], entries := [], tasks := [], nextId := 1 }

/-- An in-progress task assigned to worker 5 (for the C8 witness). -/
def c8task : Task :=
  { dfltTask with
    id := 2, title := "tarea", assigned_to := some 5, created_by := 2,
    status := .en_progreso }

def c8st : St := { clocks := [], entries := [], tasks := [c8task], nextId := 3 }

/-- Body touching the frozen field title. -/
def c8body : UpdateBody := { emptyBody with title := some "nuevo" }

/-- State after worker 7 creates a free-activity task (status en_progreso,
id 0) in an empty store (for C9). -/
def c9st1 : St := (createActivity (initSt []) 7 "libre").2

/-- Body that only asks to move the task back to pendiente. -/
def c9body : UpdateBody := { emptyBody with status := some .pendiente }

/-- A pending task for the C9 witness of the remaining operations. -/
def c9wTask : Task :=
  { dfltTask with
    id := 2, title := "tarea", assigned_to := some 9, created_by := 2,
    status := .pendiente }

def c9wSt : St := { clocks := [], entries := [], tasks := [c9wTask], nextId := 3 }

def c9wPair : Task × St := (completeTask c9wSt 9 .trabajador 2 5).toOption.getD (dfltTask, c9wSt)

/-- The task value stored by a completing PUT update: the body fields
applied and completed_at stamped with now. -/
def completedUpdate (t : Task) (b : UpdateBody) (now : Nat) : Task :=
  { applyBody t b with completed_at := some now }

theorem countP_replaceFirst_le (p q : α → Bool) (x : α) (l : List α) (hx : q x = false) :
    (replaceFirst p x l).countP q ≤ l.countP q := by
  induction l with
  | nil => simp [replaceFirst]
  | cons a rest ih =>
    rw [replaceFirst]
    by_cases h : p a = true
    · rw [if_pos h, List.countP_cons, List.countP_cons, hx]
      simp only [Bool.false_eq_true, if_false, Nat.add_zero]
      exact Nat.le_add_right _ _
    · rw [if_neg h, List.countP_cons, List.countP_cons]
      exact Nat.add_le_add_right ih _

theorem mem_replaceFirst {x b : α} {p : α → Bool} {l : List α}
    (h : b ∈ replaceFirst p x l) : b = x ∨ b ∈ l := by
  induction l with
  | nil => simp [replaceFirst] at h
  | cons a rest ih =>
    rw [replaceFirst] at h
    by_cases hp : p a = true
    · rw [if_pos hp] at h
      rcases List.mem_cons.mp h with h1 | h1
      · exact Or.inl h1
      · exact Or.inr (List.mem_cons_of_mem _ h1)
    · rw [if_neg hp] at h
      rcases List.mem_cons.mp h with h1 | h1
      · exact Or.inr (h1 ▸ List.mem_cons_self a rest)
      · rcases ih h1 with h2 | h2
        · exact Or.inl h2
        · exact Or.inr (List.mem_cons_of_mem _ h2)

theorem map_replaceFirst (f : α → β) (p : α → Bool) (x : α) (l : List α)
    (h : ∀ a, p a = true → f a = f x) : (replaceFirst p x l).map f = l.map f := by
  induction l with
  | nil => simp [replaceFirst]
  | cons a rest ih =>
    rw [replaceFirst]
    by_cases hp : p a = true
    · rw [if_pos hp]
      simp [h a hp]
    · rw [if_neg hp]
      simp [ih]

theorem find?_replaceFirst (p : α → Bool) (x a : α) (l : List α)
    (hf : l.find? p = some a) (hx : p x = true) :
    (replaceFirst p x l).find? p = some x := by
  induction l with
  | nil => simp at hf
  | cons b rest ih =>
    rw [replaceFirst]
    by_cases hb : p b = true
    · rw [if_pos hb]
      exact List.find?_cons_of_pos _ hx
    · rw [List.find?_cons_of_neg _ hb] at hf
      rw [if_neg hb, List.find?_cons_of_neg _ hb]
      exact ih hf

theorem replaceFirst_of_no_match (p : α → Bool) (x : α) (l : List α)
    (h : ∀ a ∈ l, ¬ p a = true) : replaceFirst p x l = l := by
  induction l with
  | nil => rfl
  | cons a rest ih =>
    rw [replaceFirst, if_neg (h a (List.mem_cons_self a rest)),
      ih (fun b hb => h b (List.mem_cons_of_mem _ hb))]

theorem mem_replaceFirst_of_found (p : α → Bool) (x a : α) (l : List α)
    (hf : l.find? p = some a) : x ∈ replaceFirst p x l := by
  induction l with
  | nil => simp at hf
  | cons b rest ih =>
    rw [replaceFirst]
    by_cases hb : p b = true
    · rw [if_pos hb]
      exact List.mem_cons_self _ _
    · rw [List.find?_cons_of_neg _ hb] at hf
      rw [if_neg hb]
      exact List.mem_cons_of_mem _ (ih hf)

theorem pickLatest_eq_none {l : List TimeClock} : pickLatest l = none ↔ l = [] := by
  cases l with
  | nil => simp [pickLatest]
  | cons c rest =>
    simp only [pickLatest]
    cases pickLatest rest with
    | none => simp
    | some c2 =>
      by_cases h : c.clock_in_time < c2.clock_in_time <;> simp [h]

theorem pickLatest_mem {l : List TimeClock} {c : TimeClock} (h : pickLatest l = some c) :
    c ∈ l := by
  induction l with
  | nil => simp [pickLatest] at h
  | cons b rest ih =>
    rw [pickLatest] at h
    cases hr : pickLatest rest with
    | none =>
      rw [hr] at h
      dsimp only at h
      obtain rfl : b = c := by injection h
      exact List.mem_cons_self _ _
    | some c2 =>
      rw [hr] at h
      dsimp only at h
      by_cases hlt : b.clock_in_time < c2.clock_in_time
      · rw [if_pos hlt] at h
        obtain rfl : c2 = c := by injection h
        exact List.mem_cons_of_mem _ (ih hr)
      · rw [if_neg hlt] at h
        obtain rfl : b = c := by injection h
        exact List.mem_cons_self _ _

theorem openClockCount_eq_zero_of_noActive {cs : List TimeClock} {uid d : Nat}
    (h : getTodaysActiveClock cs uid d = none) : openClockCount cs uid d = 0 := by
  unfold getTodaysActiveClock at h
  rw [pickLatest_eq_none] at h
  rw [openClockCount, List.countP_eq_length_filter, h]
  rfl

theorem openEntryCount_eq_zero_of_noActive {es : List TimeEntry} {uid : Nat}
    (h : getActiveEntry es uid = none) : userOpenEntryCount es uid = 0 := by
  unfold getActiveEntry at h
  rw [List.find?_eq_none] at h
  rw [userOpenEntryCount, List.countP_eq_zero]
  exact h

theorem sumTaskMinutes_append (l1 l2 : List TimeEntry) (tid : Nat) :
    sumTaskMinutes (l1 ++ l2) tid = sumTaskMinutes l1 tid + sumTaskMinutes l2 tid := by
  induction l1 with
  | nil => simp [sumTaskMinutes]
  | cons e rest ih => simp [sumTaskMinutes, ih]; omega

theorem sumTaskMinutes_replaceFirst (p : TimeEntry → Bool) (x a : TimeEntry) (tid : Nat)
    (l : List TimeEntry) (hf : l.find? p = some a) :
    sumTaskMinutes (replaceFirst p x l) tid +
      (if a.task_id = some tid then a.duration_minutes else 0)
    = sumTaskMinutes l tid + (if x.task_id = some tid then x.duration_minutes else 0) := by
  induction l with
  | nil => simp at hf
  | cons e rest ih =>
    rw [replaceFirst]
    by_cases he : p e = true
    · rw [List.find?_cons_of_pos _ he] at hf
      obtain rfl : e = a := by injection hf
      rw [if_pos he]
      simp only [sumTaskMinutes]
      omega
    · rw [List.find?_cons_of_neg _ he] at hf
      rw [if_neg he]
      simp only [sumTaskMinutes]
      have := ih hf
      omega

theorem clockIn_ok {s : St} {uid now : Nat} {p : TimeClock × St}
    (h : clockIn s uid now = .ok p) :
    getTodaysActiveClock s.clocks uid (dayOf now) = none ∧
    p.1.user_id = uid ∧ p.1.clock_in_time = now ∧ p.1.clock_out_time = none ∧
    p.1.date = dayOf now ∧ p.1.id = s.nextId ∧
    p.2.clocks = s.clocks ++ [p.1] ∧ p.2.entries = s.entries ∧ p.2.tasks = s.tasks := by
  simp only [clockIn] at h
  split at h
  · exact absurd h (by simp)
  next hg =>
    injection h with h
    cases h
    exact ⟨hg, rfl, rfl, rfl, rfl, rfl, rfl, rfl, rfl⟩

theorem clockIn_conflict {s : St} {uid now : Nat}
    (h : clockIn s uid now = .error .conflict) :
    ∃ c, getTodaysActiveClock s.clocks uid (dayOf now) = some c := by
  simp only [clockIn] at h
  split at h
  next c hg => exact ⟨c, hg⟩
  next hg => exact absurd h (by simp)

theorem clockOut_ok {s : St} {uid now brk : Nat} {p : TimeClock × St}
    (h : clockOut s uid now brk = .ok p) :
    ∃ c, getTodaysActiveClock s.clocks uid (dayOf now) = some c ∧
      brk ≤ 480 ∧ c.clock_in_time < now ∧
      p.1 = { c with
              clock_out_time := some now,
              break_time_minutes := brk,
              total_hours :=
                max 0 (((now : ℚ) - (c.clock_in_time : ℚ)) / 3600000 - (brk : ℚ) / 60),
              date := dayOf c.clock_in_time } ∧
      p.1.total_hours ≤ 24 ∧ p.1.clock_out_time = some now ∧
      p.2.clocks = replaceFirst (fun x => decide (x.id = c.id)) p.1 s.clocks ∧
      p.2.entries = s.entries ∧ p.2.tasks = s.tasks := by
  simp only [clockOut] at h
  split at h
  · exact absurd h (by simp)
  next hbrk =>
    split at h
    · exact absurd h (by simp)
    next c hg =>
      split at h
      · exact absurd h (by simp)
      next hin =>
        split at h
        · exact absurd h (by simp)
        next hhi =>
          injection h with h
          cases h
          exact ⟨c, hg, by omega, by omega, rfl, le_of_not_lt hhi, rfl, rfl, rfl, rfl⟩

theorem startEntry_ok {s : St} {uid : Nat} {role : Role} {taskId : Option Nat} {now : Nat}
    {p : TimeEntry × St} (h : startEntry s uid role taskId now = .ok p) :
    getActiveEntry s.entries uid = none ∧
    p.1.user_id = uid ∧ p.1.end_time = none ∧ p.1.duration_minutes = 0 ∧
    p.1.task_id = taskId ∧ p.1.start_time = now ∧ p.1.id = s.nextId ∧
    p.2.entries = s.entries ++ [p.1] ∧ p.2.clocks = s.clocks ∧ p.2.tasks = s.tasks := by
  simp only [startEntry] at h
  split at h
  · exact absurd h (by simp)
  next hg =>
    split at h
    · injection h with h
      cases h
      exact ⟨hg, rfl, rfl, rfl, rfl, rfl, rfl, rfl, rfl, rfl⟩
    next tid =>
      split at h
      · exact absurd h (by simp)
      next t hft =>
        split at h
        · exact absurd h (by simp)
        · injection h with h
          cases h
          exact ⟨hg, rfl, rfl, rfl, rfl, rfl, rfl, rfl, rfl, rfl⟩

theorem stopEntry_ok {s : St} {eid actorId now : Nat} {p : TimeEntry × St}
    (h : stopEntry s eid actorId now = .ok p) :
    ∃ e, findEntry s.entries eid = some e ∧ e.end_time = none ∧ e.user_id = actorId ∧
      e.start_time < now ∧ (now - e.start_time) / 60000 ≤ 1440 ∧
      p.1 = { e with
              end_time := some now,
              duration_minutes := (now - e.start_time) / 60000,
              date := dayOf e.start_time } ∧
      p.2.clocks = s.clocks ∧
      p.2.entries = replaceFirst (fun x => decide (x.id = eid)) p.1 s.entries ∧
      p.2.tasks = (match e.task_id with
        | none => s.tasks
        | some tid =>
          if 0 < (now - e.start_time) / 60000 then
            match findTask s.tasks tid with
            | none => s.tasks
            | some t =>
              replaceFirst (fun x => decide (x.id = tid))
                { t with actual_hours := (sumTaskMinutes p.2.entries tid : ℚ) / 60 } s.tasks
          else s.tasks) := by
  simp only [stopEntry] at h
  split at h
  · exact absurd h (by simp)
  next e hf =>
    split at h
    · exact absurd h (by simp)
    next hu =>
      split at h
      · exact absurd h (by simp)
      next hend =>
        split at h
        · exact absurd h (by simp)
        next hstart =>
          split at h
          · exact absurd h (by simp)
          next hdur =>
            injection h with h
            cases h
            refine ⟨e, hf, not_ne_iff.mp hend, not_ne_iff.mp hu, by omega, by omega,
              rfl, rfl, rfl, rfl⟩

theorem mem_replaceFirst_task {l : List Task} {x t : Task} {tid : Nat}
    (hnd : (l.map Task.id).Nodup)
    (h : t ∈ replaceFirst (fun a => decide (a.id = tid)) x l) :
    t = x ∨ (t ∈ l ∧ t.id ≠ tid) := by
  induction l with
  | nil => simp [replaceFirst] at h
  | cons a rest ih =>
    rw [List.map_cons, List.nodup_cons] at hnd
    rw [replaceFirst] at h
    by_cases ha : (decide (a.id = tid)) = true
    · rw [if_pos ha] at h
      rw [decide_eq_true_eq] at ha
      rcases List.mem_cons.mp h with h1 | h1
      · exact Or.inl h1
      · refine Or.inr ⟨List.mem_cons_of_mem _ h1, fun hbad => ?_⟩
        exact hnd.1 (by rw [ha, ← hbad]; exact List.mem_map_of_mem Task.id h1)
    · rw [if_neg ha] at h
      have ha2 : a.id ≠ tid := fun hb => ha (decide_eq_true hb)
      rcases List.mem_cons.mp h with h1 | h1
      · exact Or.inr ⟨h1 ▸ List.mem_cons_self a rest, h1 ▸ ha2⟩
      · rcases ih hnd.2 h1 with h2 | ⟨h3, h4⟩
        · exact Or.inl h2
        · exact Or.inr ⟨List.mem_cons_of_mem _ h3, h4⟩

theorem step_ClockInv {s : St} (h : ClockInv s) (op : Op) : ClockInv (step s op) := by
  cases op with
  | clockIn uid now =>
    simp only [step]
    cases hc : clockIn s uid now with
    | error e => exact h
    | ok p =>
      obtain ⟨hg, hu, _, hout, hd, _, hcl, _, _⟩ := clockIn_ok hc
      intro uid2 d2
      rw [openClockCount, hcl, List.countP_append]
      by_cases hp : isOpenClockFor uid2 d2 p.1 = true
      · have hp2 := hp
        unfold isOpenClockFor at hp2
        rw [decide_eq_true_eq] at hp2
        have huid : uid2 = uid := hu ▸ hp2.1.symm
        have hd2 : d2 = dayOf now := hd ▸ hp2.2.1.symm
        rw [huid, hd2]
        have hzero : openClockCount s.clocks uid (dayOf now) = 0 :=
          openClockCount_eq_zero_of_noActive hg
        rw [openClockCount] at hzero
        rw [hzero]
        have hp3 : isOpenClockFor uid (dayOf now) p.1 = true := by
          unfold isOpenClockFor
          rw [decide_eq_true_eq]
          exact ⟨hu, hd, hout⟩
        simp [List.countP_cons, hp3]
      · have h1 := h uid2 d2
        rw [openClockCount] at h1
        simp only [List.countP_cons, List.countP_nil, hp]
        simpa using h1
  | clockOut uid now brk =>
    simp only [step]
    cases hc : clockOut s uid now brk with
    | error e => exact h
    | ok p =>
      obtain ⟨c, _, _, _, _, _, hpout, hcl, _, _⟩ := clockOut_ok hc
      intro uid2 d2
      rw [openClockCount, hcl]
      refine le_trans (countP_replaceFirst_le _ _ _ _ ?_) (h uid2 d2)
      unfold isOpenClockFor
      simp [hpout]
  | startEntry uid role taskId now =>
    simp only [step]
    cases hc : startEntry s uid role taskId now with
    | error e => exact h
    | ok p =>
      obtain ⟨_, _, _, _, _, _, _, _, hcl, _⟩ := startEntry_ok hc
      intro uid2 d2
      rw [openClockCount, hcl]
      exact h uid2 d2
  | stopEntry eid actorId now =>
    simp only [step]
    cases hc : stopEntry s eid actorId now with
    | error e => exact h
    | ok p =>
      obtain ⟨e, _, _, _, _, _, _, hcl, _, _⟩ := stopEntry_ok hc
      intro uid2 d2
      rw [openClockCount, hcl]
      exact h uid2 d2

theorem step_EntryInv {s : St} (h : EntryInv s) (op : Op) : EntryInv (step s op) := by
  cases op with
  | clockIn uid now =>
    simp only [step]
    cases hc : clockIn s uid now with
    | error e => exact h
    | ok p =>
      obtain ⟨_, _, _, _, _, _, _, hen, _⟩ := clockIn_ok hc
      intro uid2
      rw [userOpenEntryCount, hen]
      exact h uid2
  | clockOut uid now brk =>
    simp only [step]
    cases hc : clockOut s uid now brk with
    | error e => exact h
    | ok p =>
      obtain ⟨c, _, _, _, _, _, _, _, hen, _⟩ := clockOut_ok hc
      intro uid2
      rw [userOpenEntryCount, hen]
      exact h uid2
  | startEntry uid role taskId now =>
    simp only [step]
    cases hc : startEntry s uid role taskId now with
    | error e => exact h
    | ok p =>
      obtain ⟨hg, hu, hout, _, _, _, _, hen, _, _⟩ := startEntry_ok hc
      intro uid2
      rw [userOpenEntryCount, hen, List.countP_append]
      by_cases hp : isOpenEntryFor uid2 p.1 = true
      · have hp2 := hp
        unfold isOpenEntryFor at hp2
        rw [decide_eq_true_eq] at hp2
        have huid : uid2 = uid := hu ▸ hp2.1.symm
        rw [huid]
        have hzero : userOpenEntryCount s.entries uid = 0 :=
          openEntryCount_eq_zero_of_noActive hg
        rw [userOpenEntryCount] at hzero
        rw [hzero]
        have hp3 : isOpenEntryFor uid p.1 = true := by
          unfold isOpenEntryFor
          rw [decide_eq_true_eq]
          exact ⟨hu, hout⟩
        simp [List.countP_cons, hp3]
      · have h1 := h uid2
        rw [userOpenEntryCount] at h1
        simp only [List.countP_cons, List.countP_nil, hp]
        simpa using h1
  | stopEntry eid actorId now =>
    simp only [step]
    cases hc : stopEntry s eid actorId now with
    | error e => exact h
    | ok p =>
      obtain ⟨e, _, _, _, _, _, hp1, _, hen, _⟩ := stopEntry_ok hc
      intro uid2
      rw [userOpenEntryCount, hen]
      refine le_trans (countP_replaceFirst_le _ _ _ _ ?_) (h uid2)
      unfold isOpenEntryFor
      rw [hp1]
      simp

theorem run_ClockInv (ops : List Op) : ∀ {s : St}, ClockInv s → ClockInv (run s ops) := by
  induction ops with
  | nil => intro s h; exact h
  | cons op ops ih =>
    intro s h
    rw [run]
    exact ih (step_ClockInv h op)

theorem run_EntryInv (ops : List Op) : ∀ {s : St}, EntryInv s → EntryInv (run s ops) := by
  induction ops with
  | nil => intro s h; exact h
  | cons op ops ih =>
    intro s h
    rw [run]
    exact ih (step_EntryInv h op)

theorem initSt_ClockInv (ts : List Task) : ClockInv (initSt ts) := by
  intro uid d
  simp [initSt, openClockCount]

theorem initSt_EntryInv (ts : List Task) : EntryInv (initSt ts) := by
  intro uid
  simp [initSt, userOpenEntryCount]

theorem step_HoursInv {s : St} (h : HoursInv s) (op : Op) : HoursInv (step s op) := by
  obtain ⟨hsum, hopen, hnd⟩ := h
  cases op with
  | clockIn uid now =>
    simp only [step]
    cases hc : clockIn s uid now with
    | error e => exact ⟨hsum, hopen, hnd⟩
    | ok p =>
      obtain ⟨_, _, _, _, _, _, _, hen, ht⟩ := clockIn_ok hc
      exact ⟨by rw [ht, hen]; exact hsum, by rw [hen]; exact hopen, by rw [ht]; exact hnd⟩
  | clockOut uid now brk =>
    simp only [step]
    cases hc : clockOut s uid now brk with
    | error e => exact ⟨hsum, hopen, hnd⟩
    | ok p =>
      obtain ⟨c, _, _, _, _, _, _, _, hen, ht⟩ := clockOut_ok hc
      exact ⟨by rw [ht, hen]; exact hsum, by rw [hen]; exact hopen, by rw [ht]; exact hnd⟩
  | startEntry uid role taskId now =>
    simp only [step]
    cases hc : startEntry s uid role taskId now with
    | error e => exact ⟨hsum, hopen, hnd⟩
    | ok p =>
      obtain ⟨_, _, _, hdur, _, _, _, hen, _, ht⟩ := startEntry_ok hc
      refine ⟨?_, ?_, by rw [ht]; exact hnd⟩
      · intro t htmem
        rw [ht] at htmem
        rw [hen, sumTaskMinutes_append]
        have hz : sumTaskMinutes [p.1] t.id = 0 := by
          simp only [sumTaskMinutes, hdur]
          simp
        rw [hz, Nat.add_zero]
        exact hsum t htmem
      · intro e2 he2
        rw [hen] at he2
        rcases List.mem_append.mp he2 with h1 | h1
        · exact hopen e2 h1
        · intro _
          rw [List.mem_singleton.mp h1]
          exact hdur
  | stopEntry eid actorId now =>
    simp only [step]
    cases hc : stopEntry s eid actorId now with
    | error e => exact ⟨hsum, hopen, hnd⟩
    | ok p =>
      obtain ⟨e, hf, hend, hu, hlt, hdle, hp1, _, hen, ht⟩ := stopEntry_ok hc
      have hemem : e ∈ s.entries := List.mem_of_find?_eq_some (by rw [findEntry] at hf; exact hf)
      have hedur : e.duration_minutes = 0 := hopen e hemem hend
      have hptask : p.1.task_id = e.task_id := by rw [hp1]
      have hsum2 : ∀ tid, sumTaskMinutes p.2.entries tid
          = sumTaskMinutes s.entries tid
            + (if p.1.task_id = some tid then p.1.duration_minutes else 0) := by
        intro tid
        rw [hen]
        have hrep := sumTaskMinutes_replaceFirst (fun x => decide (x.id = eid)) p.1 e tid
          s.entries (by rw [findEntry] at hf; exact hf)
        rw [hedur] at hrep
        rw [ite_self] at hrep
        rw [Nat.add_zero] at hrep
        exact hrep
      refine ⟨?_, ?_, ?_⟩
      · intro t htmem
        rw [ht] at htmem
        cases hetid : e.task_id with
        | none =>
          rw [hetid] at htmem
          dsimp only at htmem
          rw [hsum2 t.id, hptask, hetid,
            if_neg (fun hx => Option.noConfusion hx), Nat.add_zero]
          exact hsum t htmem
        | some tid0 =>
          rw [hetid] at htmem
          dsimp only at htmem
          by_cases hd : 0 < (now - e.start_time) / 60000
          · rw [if_pos hd] at htmem
            cases hft : findTask s.tasks tid0 with
            | none =>
              rw [hft] at htmem
              have hne : t.id ≠ tid0 := by
                intro hbad
                have hall := List.find?_eq_none.mp (by rw [findTask] at hft; exact hft) t htmem
                simp [hbad] at hall
              rw [hsum2 t.id, hptask, hetid,
                if_neg (fun hx => hne (Option.some.inj hx).symm), Nat.add_zero]
              exact hsum t htmem
            | some t0 =>
              rw [hft] at htmem
              have ht0id : t0.id = tid0 := by
                rw [findTask] at hft
                simpa using List.find?_some hft
              rcases mem_replaceFirst_task hnd htmem with rfl | ⟨hmem2, hne⟩
              · dsimp only
                rw [ht0id]
              · rw [hsum2 t.id, hptask, hetid,
                  if_neg (fun hx => hne (Option.some.inj hx).symm), Nat.add_zero]
                exact hsum t hmem2
          · rw [if_neg hd] at htmem
            have hpd : p.1.duration_minutes = 0 := by
              rw [hp1]
              dsimp only
              omega
            rw [hsum2 t.id, hpd, ite_self, Nat.add_zero]
            exact hsum t htmem
      · intro e2 he2
        rw [hen] at he2
        rcases mem_replaceFirst he2 with h1 | h1
        · intro hbad
          rw [h1, hp1] at hbad
          simp at hbad
        · exact hopen e2 h1
      · rw [ht]
        cases hetid : e.task_id with
        | none => exact hnd
        | some tid0 =>
          dsimp only
          by_cases hd : 0 < (now - e.start_time) / 60000
          · rw [if_pos hd]
            cases hft : findTask s.tasks tid0 with
            | none => exact hnd
            | some t0 =>
              have ht0id : t0.id = tid0 := by
                rw [findTask] at hft
                simpa using List.find?_some hft
              rw [map_replaceFirst Task.id _ _ _ ?_]
              · exact hnd
              · intro a ha
                have haid : a.id = tid0 := of_decide_eq_true ha
                dsimp only
                rw [haid, ht0id]
          · rw [if_neg hd]
            exact hnd

theorem run_HoursInv (ops : List Op) : ∀ {s : St}, HoursInv s → HoursInv (run s ops) := by
  induction ops with
  | nil => intro s h; exact h
  | cons op ops ih =>
    intro s h
    rw [run]
    exact ih (step_HoursInv h op)

theorem initSt_HoursInv (ts : List Task) (hz : ∀ t ∈ ts, t.actual_hours = 0)
    (hnd : (ts.map Task.id).Nodup) : HoursInv (initSt ts) := by
  refine ⟨?_, ?_, hnd⟩
  · intro t ht
    rw [hz t ht]
    simp [initSt, sumTaskMinutes]
  · intro e he
    simp [initSt] at he

/-- C1 (amended): in every state reachable by clockIn, clockOut,
startEntry and stopEntry from an initial store with no sessions and no
entries, each user has at most one open TimeEntry over all dates, and at
most one open ClockSession per calendar date.  The original claim's bound
of one open ClockSession per user over all dates fails, because clockIn
only checks for an open session dated today (see the counterexample). -/
theorem openRecords_at_most_one (ts : List Task) (ops : List Op) (uid d : Nat) :
    openClockCount (run (initSt ts) ops).clocks uid d ≤ 1 ∧
    userOpenEntryCount (run (initSt ts) ops).entries uid ≤ 1 :=
  ⟨run_ClockInv ops (initSt_ClockInv ts) uid d, run_EntryInv ops (initSt_EntryInv ts) uid⟩

/-- C1 counterexample: clocking in on day 0 and again on day 1 without
ever clocking out is a reachable trace that leaves user 7 with two open
ClockSessions, refuting the claimed bound of at most one open session per
user. -/
theorem two_open_sessions_reachable :
    ¬ userOpenClockCount (run (initSt []) c1ops).clocks 7 ≤ 1 := by decide

/-- C2 counterexample: with an open session of user 7 dated day 0 in the
store, a clock-in on day 1 succeeds instead of failing with Conflict,
refuting the claim that clockIn fails whenever an open session exists
regardless of its calendar date. -/
theorem clockIn_ignores_old_open_session :
    (∃ c ∈ c2st.clocks, c.user_id = 7 ∧ c.clock_out_time = none) ∧
    (clockIn c2st 7 86400000).toOption.isSome = true := by decide

/-- C2 (amended): clockIn fails with Conflict exactly when an open session
dated on the current calendar day exists for the user; otherwise it
succeeds and appends a new session with start = now and date = today.  In
particular closed sessions for the same user and day never cause a
Conflict. -/
theorem clockIn_conflict_iff_open_today (s : St) (uid now : Nat) :
    (clockIn s uid now = .error .conflict ↔
      ∃ c ∈ s.clocks, c.user_id = uid ∧ c.date = dayOf now ∧ c.clock_out_time = none) ∧
    ∀ p, clockIn s uid now = .ok p →
      p.2.clocks = s.clocks ++ [p.1] ∧ p.1.clock_in_time = now ∧
      p.1.date = dayOf now ∧ p.1.clock_out_time = none ∧ p.1.user_id = uid := by
  constructor
  · constructor
    · intro h
      obtain ⟨c, hg⟩ := clockIn_conflict h
      have hmem := pickLatest_mem hg
      rw [List.mem_filter] at hmem
      refine ⟨c, hmem.1, ?_⟩
      have hp := hmem.2
      unfold isOpenClockFor at hp
      rw [decide_eq_true_eq] at hp
      exact hp
    · rintro ⟨c, hmem, hprop⟩
      rw [clockIn]
      cases hg : getTodaysActiveClock s.clocks uid (dayOf now) with
      | some c2 => rfl
      | none =>
        exfalso
        unfold getTodaysActiveClock at hg
        rw [pickLatest_eq_none, List.filter_eq_nil_iff] at hg
        exact hg c hmem (by unfold isOpenClockFor; rw [decide_eq_true_eq]; exact hprop)
  · intro p hp
    obtain ⟨_, hu, hin, hout, hd, _, hcl, _, _⟩ := clockIn_ok hp
    exact ⟨hcl, hin, hd, hout, hu⟩

/-- C2 witness: with only a closed session for user 7 on day 0, clocking
in again at instant 7200000 of the same day succeeds and appends the new
open session. -/
theorem clockIn_conflict_iff_open_today_witness :
    c2wPair.2.clocks = c2wSt.clocks ++ [c2wPair.1] ∧ c2wPair.1.clock_in_time = 7200000 ∧
    c2wPair.1.clock_out_time = none := by
  have h := (clockIn_conflict_iff_open_today c2wSt 7 7200000).2 c2wPair (by rfl)
  exact ⟨h.1, h.2.1, h.2.2.2.1⟩

/-- C3: stopping an open entry at instant now sets end = now and
duration_minutes = the elapsed milliseconds divided by 60000 rounded down
(whole minutes), and in every state reachable from fresh tasks (zero
actual_hours, distinct primary keys) every task's actual_hours — in
particular the stopped entry's task — equals the sum of duration_minutes
over all entries linked to it divided by 60: the full re-sum performed by
the afterSave hook. -/
theorem stopEntry_duration_and_resum (ts : List Task) (ops : List Op) (eid aid now : Nat)
    (p : TimeEntry × St)
    (hz : ∀ t ∈ ts, t.actual_hours = 0)
    (hnd : (ts.map Task.id).Nodup)
    (h : stopEntry (run (initSt ts) ops) eid aid now = .ok p) :
    p.1.end_time = some now ∧
    p.1.duration_minutes = (now - p.1.start_time) / 60000 ∧
    ∀ t ∈ p.2.tasks, t.actual_hours = (sumTaskMinutes p.2.entries t.id : ℚ) / 60 := by
  have hJ : HoursInv (run (initSt ts) ops) := run_HoursInv ops (initSt_HoursInv ts hz hnd)
  have hpost : HoursInv p.2 := by
    have hstep := step_HoursInv hJ (.stopEntry eid aid now)
    simp only [step, h] at hstep
    exact hstep
  obtain ⟨e, hf, hend, hu, hlt, hdle, hp1, _, hen, ht⟩ := stopEntry_ok h
  refine ⟨by rw [hp1], ?_, hpost.1⟩
  rw [hp1]

/-- C3 witness: worker 4 starts a timer on task 1 at instant 1000 and
stops it at instant 121000; the closed entry has duration 2 minutes and
every task in the store carries the sum of its entries' minutes over 60. -/
theorem stopEntry_duration_and_resum_witness :
    c3pair.1.end_time = some 121000 ∧
    c3pair.1.duration_minutes = (121000 - c3pair.1.start_time) / 60000 ∧
    (c3pair.2.tasks.all fun t =>
      decide (t.actual_hours = (sumTaskMinutes c3pair.2.entries t.id : ℚ) / 60)) = true := by
  have h := stopEntry_duration_and_resum [c3task] [.startEntry 4 .trabajador (some 1) 1000]
    0 4 121000 c3pair (by decide) (by decide) (by rfl)
  refine ⟨h.1, h.2.1, ?_⟩
  rw [List.all_eq_true]
  intro t htm
  exact decide_eq_true (h.2.2 t htm)

theorem jsRound_zero : jsRound 0 = 0 := by
  rw [jsRound, zero_add]
  norm_num

theorem sum_div60_nonneg (l : List Nat) : 0 ≤ (l.map (fun m : Nat => (m : ℚ) / 60)).sum := by
  induction l with
  | nil => simp
  | cons a rest ih =>
    rw [List.map_cons, List.sum_cons]
    have h1 : (0:ℚ) ≤ (a : ℚ) / 60 := div_nonneg (Nat.cast_nonneg a) (by norm_num)
    linarith

theorem taskWorkedHours_nonneg (t : WTask) : 0 ≤ taskWorkedHours t :=
  sum_div60_nonneg t.entryMinutes

/-- C4: the team-stats efficiency score equals the specification's
three-tier description on every input.  Tier 1 applies exactly when some
task has a positive estimate and some task has linked entries — even when
attendance hours are also positive — with value round(total estimated
hours / total worked entry-hours * 100) and no upper cap, where the
quotient is taken in ℚ so that a zero worked total (possible only when
every linked entry has zero duration) yields 0, matching the code's
guard; tier 2 caps at 200 against the 0.5 completed-tasks-per-hour
baseline; tier 3 gives a flat 80; otherwise 0. -/
theorem efficiency_eq_spec (tasks : List WTask) (totalHours : ℚ) (completedTasks : Nat) :
    efficiency tasks totalHours completedTasks
      = specEfficiency tasks totalHours completedTasks := by
  simp only [efficiency, specEfficiency]
  split_ifs with h1 h2 <;> try rfl
  have hge : (0:ℚ) ≤ (tasks.map taskWorkedHours).sum := by
    refine List.sum_nonneg ?_
    intro x hx
    rw [List.mem_map] at hx
    obtain ⟨t, _, hxe⟩ := hx
    rw [← hxe]
    exact taskWorkedHours_nonneg t
  have hz : (tasks.map taskWorkedHours).sum = 0 := le_antisymm (not_lt.mp h2) hge
  rw [hz, div_zero, zero_mul]
  rw [jsRound_zero]

/-- C5 (amended): for the status-update operation PUT /api/tasks/:id,
when the body requests status completada and the request passes the
permission and in-progress-freeze gates, the update is rejected with the
open-timer error while some entry linked to the task is still open (no
new state is produced, so the task is unchanged), and once no linked
entry is open the same request succeeds and stores the task with status
completada and a non-null completed_at = now.  The claim's universal
quantification over every completing operation fails: the dedicated
POST /api/tasks/:id/complete route performs no open-timer check (see the
counterexample). -/
theorem updateTask_completion_open_timer (s : St) (aid : Nat) (role : Role) (tid now : Nat)
    (b : UpdateBody) (t : Task)
    (hfind : findTask s.tasks tid = some t)
    (hperm : ¬(role = .trabajador ∧ t.assigned_to ≠ some aid))
    (hstat : b.status = some .completada)
    (hfroz : t.status = .en_progreso → invalidFields b = []) :
    (hasOpenEntryForTask s.entries tid = true →
      updateTask s aid role tid b now = .error .openTimer) ∧
    (hasOpenEntryForTask s.entries tid = false →
      updateTask s aid role tid b now
        = .ok { s with
                tasks := replaceFirst (fun x => decide (x.id = tid))
                  (completedUpdate t b now) s.tasks } ∧
      ∃ t2, (replaceFirst (fun x => decide (x.id = tid))
              (completedUpdate t b now) s.tasks).find?
                (fun x => decide (x.id = tid)) = some t2 ∧
        t2.status = .completada ∧ t2.completed_at = some now) := by
  have hfindP : s.tasks.find? (fun x => decide (x.id = tid)) = some t := by
    rw [findTask] at hfind
    exact hfind
  have htid : t.id = tid := by simpa using List.find?_some hfindP
  have ht2stat : (applyBody t b).status = .completada := by
    show b.status.getD t.status = .completada
    rw [hstat]
    rfl
  have ht3 : beforeUpdateHook (completedUpdate t b now) now = completedUpdate t b now := by
    rw [beforeUpdateHook,
      if_neg (fun hx => by simp [completedUpdate] at hx),
      if_neg (fun hx => hx.1 ht2stat)]
  constructor
  · intro hop
    simp only [updateTask, hfind]
    rw [if_neg hperm, if_neg (fun hx => hx.2 (hfroz hx.1)), if_pos ⟨hstat, hop⟩]
  · intro hop
    have heq : updateTask s aid role tid b now
        = .ok { s with
                tasks := replaceFirst (fun x => decide (x.id = tid))
                  (completedUpdate t b now) s.tasks } := by
      simp only [updateTask, hfind]
      rw [if_neg hperm, if_neg (fun hx => hx.2 (hfroz hx.1)),
        if_neg (fun hx => by rw [hop] at hx; exact Bool.false_ne_true hx.2),
        if_pos hstat]
      rw [show ({ applyBody t b with completed_at := some now } : Task)
        = completedUpdate t b now from rfl, ht3]
    refine ⟨heq, completedUpdate t b now, ?_, ht2stat, rfl⟩
    refine find?_replaceFirst _ _ _ _ hfindP ?_
    exact decide_eq_true (show (completedUpdate t b now).id = tid from htid)

/-- C5 witness: on task 1 with no open linked entry, the completing update
PUT request of worker 4 succeeds and stores status completada with
completed_at = 1000. -/
theorem updateTask_completion_open_timer_witness :
    ((updateTask c5wSt 4 .trabajador 1 c5body 1000).toOption.map
      fun s2 => (s2.tasks.find? fun x => decide (x.id = 1)).map
        fun t2 => (t2.status, t2.completed_at)) = some (some (.completada, some 1000)) := by
  have h := updateTask_completion_open_timer c5wSt 4 .trabajador 1 1000 c5body c5task
    (by decide) (by decide) (by decide) (by decide)
  obtain ⟨heq, t2, hf2, hs2, hc2⟩ := h.2 (by decide)
  rw [heq]
  simp only [Except.toOption, Option.map_some']
  rw [hf2]
  simp [hs2, hc2]

/-- C5 counterexample: task 1 has an open linked time entry, yet the
dedicated completion operation POST /api/tasks/:id/complete succeeds and
marks it completada — the open-timer check exists only in the PUT route,
refuting the claim for every operation that can set status completed. -/
theorem completeTask_bypasses_open_timer :
    hasOpenEntryForTask c5cexSt.entries 1 = true ∧
    ((completeTask c5cexSt 9 .jefe 1 1000).toOption.map fun p => p.1.status)
      = some .completada := by decide

theorem beforeUpdateHook_status (t : Task) (now : Nat) :
    (beforeUpdateHook t now).status = t.status := by
  rw [beforeUpdateHook]
  split_ifs <;> rfl

/-- C6 (amended): the per-task progress Task.calculateProgress matches
the claimed formula — 100 when completed, 0 without a positive estimate,
otherwise min(round(actual/estimated*100), 100) — and its value lies in
[0,100] whenever actual_hours is nonnegative, equalling 100 for every
completed task.  The task-list operation computes progress with the
estimate branch checked before the completed branch, so the claim's
quantification over every progress-reporting operation fails (see the
counterexample). -/
theorem calculateProgress_spec (t : Task) (h : 0 ≤ t.actual_hours) :
    (t.status = .completada → calculateProgress t = 100) ∧
    (t.status ≠ .completada → t.estimated_hours = none → calculateProgress t = 0) ∧
    (∀ e, t.status ≠ .completada → t.estimated_hours = some e → e ≤ 0 →
      calculateProgress t = 0) ∧
    (∀ e, t.status ≠ .completada → t.estimated_hours = some e → 0 < e →
      calculateProgress t = min (jsRound (t.actual_hours / e * 100)) 100) ∧
    0 ≤ calculateProgress t ∧ calculateProgress t ≤ 100 := by
  have hb : ∀ e : ℚ, 0 < e → 0 ≤ jsRound (t.actual_hours / e * 100) := by
    intro e he
    rw [jsRound]
    refine Int.le_floor.mpr ?_
    have hx : 0 ≤ t.actual_hours / e * 100 :=
      mul_nonneg (div_nonneg h (le_of_lt he)) (by norm_num)
    push_cast
    linarith
  have hrange : 0 ≤ calculateProgress t ∧ calculateProgress t ≤ 100 := by
    rw [calculateProgress]
    by_cases hs : t.status = .completada
    · rw [if_pos hs]
      norm_num
    · rw [if_neg hs]
      cases hest : t.estimated_hours with
      | none => norm_num
      | some e =>
        dsimp only
        by_cases hle : e ≤ 0
        · rw [if_pos hle]
          norm_num
        · rw [if_neg hle]
          exact ⟨le_min (hb e (not_le.mp hle)) (by norm_num), min_le_right _ _⟩
  refine ⟨?_, ?_, ?_, ?_, hrange.1, hrange.2⟩
  · intro hs
    rw [calculateProgress, if_pos hs]
  · intro hs hest
    rw [calculateProgress, if_neg hs, hest]
  · intro e hs hest hle
    rw [calculateProgress, if_neg hs, hest]
    dsimp only
    rw [if_pos hle]
  · intro e hs hest hpos
    rw [calculateProgress, if_neg hs, hest]
    dsimp only
    rw [if_neg (not_le.mpr hpos)]

/-- C6 witness: the completed task c6task (estimate 10, zero worked
hours) has per-task progress 100, inside [0,100]. -/
theorem calculateProgress_spec_witness :
    calculateProgress c6task = 100 ∧ 0 ≤ calculateProgress c6task := by
  have h := calculateProgress_spec c6task (by decide)
  exact ⟨h.1 (by decide), h.2.2.2.2.1⟩

/-- C6 counterexample: the completed task c6task with estimate 10 and no
worked entry minutes is reported with progress 0 by the task-list
operation (estimate branch first), while calculateProgress gives 100 —
refuting the claim that every operation reporting a task's progress
yields 100 for a completed task. -/
theorem listProgress_completed_not_100 :
    c6task.status = .completada ∧ listProgress c6task [] = 0 ∧
    calculateProgress c6task = 100 := by
  refine ⟨rfl, ?_, by decide⟩
  simp only [listProgress, c6task, dfltTask]
  norm_num [jsRound]

/-- C7: whenever clockOut succeeds, the persisted session keeps its start
instant, is closed at now with the validated break minutes (at most 480),
its stored duration equals max(0, elapsed hours minus breakMinutes/60),
and that duration lies in the [0,24] validity range (a computation above
24 hours is rejected by the model validation and nothing is persisted);
the closed record is stored back into the session list. -/
theorem clockOut_duration_formula (s : St) (uid now brk : Nat) (p : TimeClock × St)
    (h : clockOut s uid now brk = .ok p) :
    p.1.total_hours
      = max 0 (((now : ℚ) - (p.1.clock_in_time : ℚ)) / 3600000 - (brk : ℚ) / 60) ∧
    0 ≤ p.1.total_hours ∧ p.1.total_hours ≤ 24 ∧ brk ≤ 480 ∧
    p.1.clock_out_time = some now ∧ p.1 ∈ p.2.clocks := by
  obtain ⟨c, hg, hbrk, hlt, hp1, hle, hout, hcl, _, _⟩ := clockOut_ok h
  have hin : p.1.clock_in_time = c.clock_in_time := by rw [hp1]
  refine ⟨?_, ?_, hle, hbrk, hout, ?_⟩
  · rw [hin, hp1]
  · rw [hp1]
    exact le_max_left _ _
  · rw [hcl]
    have hcmem : c ∈ s.clocks := by
      unfold getTodaysActiveClock at hg
      exact (List.mem_filter.mp (pickLatest_mem hg)).1
    have hsome : (s.clocks.find? (fun x => decide (x.id = c.id))).isSome := by
      rw [List.find?_isSome]
      exact ⟨c, hcmem, by simp⟩
    obtain ⟨a, ha⟩ := Option.isSome_iff_exists.mp hsome
    exact mem_replaceFirst_of_found _ _ a _ ha

/-- C7 witness: user 3 clocks out two hours after clocking in with a
30-minute break; the stored duration is max(0, 2 - 1/2) = 3/2 hours,
inside [0,24]. -/
theorem clockOut_duration_formula_witness :
    c7outClock.total_hours
      = max 0 (((7200000 : ℚ) - (c7outClock.clock_in_time : ℚ)) / 3600000 - ((30:Nat) : ℚ) / 60) ∧
    0 ≤ c7outClock.total_hours ∧ c7outClock.total_hours ≤ 24 := by
  have hg : getTodaysActiveClock c7st.clocks 3 (dayOf 7200000) = some c7clock := by decide
  have hc : clockOut c7st 3 7200000 30 = .ok (c7outClock, c7postSt) := by
    rw [clockOut, if_neg (by decide : ¬ (480:Nat) < 30), hg]
    dsimp only
    rw [if_neg (by decide : ¬ (7200000:Nat) ≤ c7clock.clock_in_time),
      if_neg (by norm_num [c7clock, dfltClock] :
        ¬ (24:ℚ) < max 0 ((((7200000:Nat) : ℚ) - (c7clock.clock_in_time : ℚ)) / 3600000
          - (((30:Nat)) : ℚ) / 60))]
    simp only [c7clock, c7outClock, c7st, c7postSt, dfltClock, replaceFirst, dayOf, msPerDay]
    norm_num
  have h := clockOut_duration_formula c7st 3 7200000 30 (c7outClock, c7postSt) hc
  exact ⟨h.1, h.2.1, h.2.2.1⟩

/-- C8: for a task in en_progreso whose update passes the lookup and
permission gates, the PUT update is rejected exactly when the body
contains some field outside {status, completion_comments}, with the
freeze error naming precisely those fields; a body touching only status
and/or completion_comments is never rejected by this freeze rule. -/
theorem inProgress_freeze (s : St) (aid : Nat) (role : Role) (tid now : Nat)
    (b : UpdateBody) (t : Task)
    (hfind : findTask s.tasks tid = some t)
    (hstat : t.status = .en_progreso)
    (hperm : ¬(role = .trabajador ∧ t.assigned_to ≠ some aid)) :
    (invalidFields b ≠ [] →
      updateTask s aid role tid b now = .error (.frozenFields (invalidFields b))) ∧
    (invalidFields b = [] →
      ∀ fs, updateTask s aid role tid b now ≠ .error (.frozenFields fs)) := by
  constructor
  · intro hinv
    simp only [updateTask, hfind]
    rw [if_neg hperm, if_pos ⟨hstat, hinv⟩]
  · intro hinv fs
    simp only [updateTask, hfind]
    rw [if_neg hperm, if_neg (fun hx => hx.2 hinv)]
    by_cases hct : (b.status = some .completada ∧ hasOpenEntryForTask s.entries tid = true)
    · rw [if_pos hct]
      simp
    · rw [if_neg hct]
      simp

/-- C8 witness: the body touching only the frozen field title on the
in-progress task 2 is rejected, and the error names exactly [title]. -/
theorem inProgress_freeze_witness :
    updateTask c8st 5 .trabajador 2 c8body 0 = .error (.frozenFields [Field.title]) := by
  have h := inProgress_freeze c8st 5 .trabajador 2 0 c8body c8task
    (by decide) (by decide) (by decide)
  have h2 := h.1 (by decide)
  rw [show invalidFields c8body = [Field.title] from by decide] at h2
  exact h2

/-- C9 (amended): the completion, self-assignment and free-activity
operations never store status pendiente — completion stores completada,
self-assignment stores en_progreso, and a free-activity task is created
en_progreso; but the generic update operation accepts status = pendiente
for an in_progress task, so in_progress → pending is reachable through
it (see the counterexample). -/
theorem no_pending_from_complete_or_assign (s : St) (aid : Nat) (role : Role)
    (tid now : Nat) (title : String) :
    (∀ p, completeTask s aid role tid now = .ok p → p.1.status = .completada) ∧
    (∀ p, selfAssign s aid tid now = .ok p → p.1.status = .en_progreso) ∧
    (createActivity s aid title).1.status = .en_progreso := by
  refine ⟨?_, ?_, rfl⟩
  · intro p hp
    simp only [completeTask] at hp
    cases hft : findTask s.tasks tid with
    | none =>
      rw [hft] at hp
      exact absurd hp (by simp)
    | some t =>
      rw [hft] at hp
      dsimp only at hp
      by_cases hperm : (role = .trabajador ∧ t.assigned_to ≠ some aid)
      · rw [if_pos hperm] at hp
        exact absurd hp (by simp)
      · rw [if_neg hperm] at hp
        injection hp with hp
        cases hp
        rfl
  · intro p hp
    simp only [selfAssign] at hp
    cases hft : findTask s.tasks tid with
    | none =>
      rw [hft] at hp
      exact absurd hp (by simp)
    | some t =>
      rw [hft] at hp
      dsimp only at hp
      by_cases h1 : t.assigned_to ≠ none
      · rw [if_pos h1] at hp
        exact absurd hp (by simp)
      · rw [if_neg h1] at hp
        by_cases h2 : (t.status = .completada ∨ t.status = .cancelada)
        · rw [if_pos h2] at hp
          exact absurd hp (by simp)
        · rw [if_neg h2] at hp
          injection hp with hp
          cases hp
          exact beforeUpdateHook_status _ _

/-- C9 (amended) witness: completing the pending task 2 stores status
completada (not pendiente), and a fresh free-activity task is created
en_progreso. -/
theorem no_pending_from_complete_or_assign_witness :
    c9wPair.1.status = .completada ∧ (createActivity c9wSt 9 "act").1.status = .en_progreso := by
  have h := no_pending_from_complete_or_assign c9wSt 9 .trabajador 2 5 "act"
  exact ⟨h.1 c9wPair (by rfl), h.2.2⟩

/-- C9 counterexample: after worker 7 creates a free-activity task — a
reachable state where the task is observed en_progreso — the generic
update with body status := pendiente succeeds and the same task is
observed pendiente, so the in_progress → pending transition is exposed,
refuting the claim. -/
theorem inprogress_to_pending_reachable :
    ((findTask c9st1.tasks 0).map Task.status = some .en_progreso) ∧
    ((updateTask c9st1 7 .trabajador 0 c9body 50).toOption.map
      (fun s2 => (findTask s2.tasks 0).map Task.status)) = some (some .pendiente) := by
  decide

/-- C10: the weekly-report permission gate — a worker actor is rejected
with Forbidden exactly when the requested target user (defaulting to the
actor itself) differs from their own id, a successful worker request can
only target the actor, and a manager actor succeeds for every explicitly
requested target. -/
theorem weeklyReportTarget_permissions (p : Option Nat) (aid : Nat) :
    (weeklyReportTarget .trabajador p aid = .error .forbidden ↔ p.getD aid ≠ aid) ∧
    (∀ t, weeklyReportTarget .trabajador p aid = .ok t → t = aid) ∧
    (∀ t, p = some t → weeklyReportTarget .jefe p aid = .ok t) := by
  refine ⟨⟨?_, ?_⟩, ?_, ?_⟩
  · intro h
    by_cases hne : p.getD aid ≠ aid
    · exact hne
    · rw [weeklyReportTarget, if_neg (fun hx => hne hx.2)] at h
      exact absurd h (by simp)
  · intro hne
    rw [weeklyReportTarget, if_pos ⟨rfl, hne⟩]
  · intro t ht
    rw [weeklyReportTarget] at ht
    by_cases hne : p.getD aid ≠ aid
    · rw [if_pos ⟨rfl, hne⟩] at ht
      exact absurd ht (by simp)
    · rw [if_neg (fun hx => hne hx.2)] at ht
      injection ht with ht
      rw [← ht]
      exact not_not.mp hne
  · intro t ht
    rw [weeklyReportTarget, if_neg (fun hx => Role.noConfusion hx.1), ht]
    rfl

/-- C10 witness: worker 3 asking for user 5 is rejected with Forbidden,
while the manager asking for user 5 succeeds. -/
theorem weeklyReportTarget_permissions_witness :
    weeklyReportTarget .trabajador (some 5) 3 = .error .forbidden ∧
    weeklyReportTarget .jefe (some 5) 3 = .ok 5 := by
  have h := weeklyReportTarget_permissions (some 5) 3
  exact ⟨h.1.mpr (by decide), h.2.2 5 rfl⟩

end Ferreteria
